import Mathlib

/-!
Verification of the MCP travel-agent repository: a shallow embedding of
`src/mcp_client.py` (the `FastMCPClient` stdio protocol client) and
`src/main.py` (tool registry construction, remote-tool wrappers and the
`chat` conversation loop), with theorems settling the specification claims.

JSON values parsed from the wire (`json.loads`) are untyped, so responses
are modelled by an inductive `Json` type, and the Python dictionary / list
operations the client performs on them (`in`, `[...]`, `.get`, `len`,
truthiness) are modelled as `Except`-valued functions that raise the same
exception classes Python would raise on ill-typed operands.
-/

/-- Python exception classes that the embedded code can raise. -/
inductive PyError where
  | typeError
  | attributeError
  | keyError
  | indexError
  | validationError (missing : List String)
  | spawnError
  deriving Repr, DecidableEq

/-- A JSON document, as produced by `json.loads` on one response line.
Numbers are modelled as integers (no claim depends on float values);
objects are association lists with distinct string keys, in insertion
order, matching a parsed Python `dict`. -/
inductive Json where
  | null
  | bool (b : Bool)
  | num (n : Int)
  | str (s : String)
  | arr (xs : List Json)
  | obj (kvs : List (String × Json))
  deriving Repr

/-- Python truthiness (`if not response:`): `None`, `False`, `0`, `""`,
`[]` and `{}` are falsy, everything else truthy. -/
def Json.truthy : Json → Bool
  | .null => false
  | .bool b => b
  | .num n => n != 0
  | .str s => !s.isEmpty
  | .arr xs => !xs.isEmpty
  | .obj kvs => !kvs.isEmpty

/-- Whether a JSON value is an object (a Python `dict`). -/
def Json.isObj : Json → Bool
  | .obj _ => true
  | _ => false

/-- Python `k in v` for a string `k`: key containment for a dict,
element equality for a list (a string compares equal only to an equal
string), substring test for a string, and `TypeError` otherwise. -/
def pyContains (k : String) : Json → Except PyError Bool
  | .obj kvs => .ok (kvs.any (fun p => p.1 == k))
  | .arr xs => .ok (xs.any (fun j =>
      match j with
      | .str s => s == k
      | _ => false))
  | .str s => .ok ((s.splitOn k).length != 1)
  | _ => .error .typeError

/-- Python `v[k]` for a string key `k`: dict lookup (`KeyError` when the
key is absent), `TypeError` for every non-dict value. -/
def Json.idx (k : String) : Json → Except PyError Json
  | .obj kvs =>
      match kvs.find? (fun p => p.1 == k) with
      | some p => .ok p.2
      | none => .error .keyError
  | _ => .error .typeError

/-- Python `v.get(k, default)`: only dicts have a `get` method, so any
other value raises `AttributeError`. -/
def Json.get (v : Json) (k : String) (dflt : Json) : Except PyError Json :=
  match v with
  | .obj kvs => .ok (((kvs.find? (fun p => p.1 == k)).map (fun p => p.2)).getD dflt)
  | _ => .error .attributeError

/-- Python `len(v)`: defined for strings, lists and dicts, `TypeError`
otherwise. -/
def Json.pyLen : Json → Except PyError Nat
  | .str s => .ok s.length
  | .arr xs => .ok xs.length
  | .obj kvs => .ok kvs.length
  | _ => .error .typeError

/-- Python `v[0]`: first element of a list (`IndexError` when empty),
first character of a string, `KeyError` for a string-keyed dict (it has
no integer key `0`), `TypeError` otherwise. -/
def Json.item0 : Json → Except PyError Json
  | .arr [] => .error .indexError
  | .arr (x :: _) => .ok x
  | .str s => if s.isEmpty then .error .indexError else .ok (.str (s.take 1))
  | .obj _ => .error .keyError
  | _ => .error .typeError

/-- Python `str(v)` as used in an f-string. Only string-valued fields are
interpolated in the claims; container rendering is abbreviated. -/
def Json.pyStr : Json → String
  | .null => "None"
  | .bool true => "True"
  | .bool false => "False"
  | .num n => toString n
  | .str s => s
  | .arr _ => "<list>"
  | .obj _ => "<dict>"

/-- Embedding of `FastMCPClient.call_tool` (src/mcp_client.py lines 164-200), given the
decoded response to the `tools/call` request it sent (`none` models
`_send_request` returning `None`: no process, no line, or a decode or
write failure). The request construction itself carries no branching, so
the function is modelled from the moment the response is in hand.

Mirrors the source line by line: `if not response` → tagged no-response
error; `if "error" in response` → tagged message error via
`error.get('message', 'Unknown error')`; `if "result" in response` →
`response["result"].get("content", [])`, and when `content and
len(content) > 0` the value of `content[0].get("text", "No response from
MCP server")` is returned raw; otherwise the tagged invalid-response
error. Ill-typed fields raise exactly where Python would. -/
def call_tool (response : Option Json) : Except PyError Json :=
  match response with
  | none => .ok (.str "❌ Error: No response from MCP server")
  | some r =>
    if !r.truthy then .ok (.str "❌ Error: No response from MCP server")
    else do
      if (← pyContains "error" r) then
        let error ← r.idx "error"
        let msg ← error.get "message" (.str "Unknown error")
        pure (.str ("❌ Error calling tool: " ++ msg.pyStr))
      else do
        if (← pyContains "result" r) then
          let result ← r.idx "result"
          let content ← result.get "content" (.arr [])
          let contentLen ← if content.truthy then content.pyLen else pure 0
          if content.truthy && contentLen > 0 then
            let first ← content.item0
            first.get "text" (.str "No response from MCP server")
          else
            pure (.str "❌ Error: Invalid response from MCP server")
        else
          pure (.str "❌ Error: Invalid response from MCP server")

/-- Shape of a `result.content` value that `call_tool` can step through
without raising: either falsy (so the branch is skipped) or a list whose
first element is a dict (the only element the code touches). -/
def contentShapeOK : Json → Bool
  | .arr [] => true
  | .arr (x :: _) => x.isObj
  | .null => true
  | .bool b => !b
  | .num n => n == 0
  | .str s => s.isEmpty
  | .obj kvs => kvs.isEmpty

/-- Shape of a `result` value that `call_tool` can step through without
raising: a dict whose `content` member (defaulting to `[]`) is itself
shape-ok. -/
def resultShapeOK : Json → Bool
  | .obj rkvs =>
      contentShapeOK (((rkvs.find? (fun p => p.1 == "content")).map (fun p => p.2)).getD (.arr []))
  | _ => false

/-- Shape of a response object under which `call_tool` is exception
free: its `error` member, when present, is a dict; otherwise its
`result` member, when present, is shape-ok. Exactly the fields the code
inspects. -/
def responseShapeOK (kvs : List (String × Json)) : Bool :=
  match kvs.find? (fun p => p.1 == "error") with
  | some p => p.2.isObj
  | none =>
    match kvs.find? (fun p => p.1 == "result") with
    | some p => resultShapeOK p.2
    | none => true

/-! ## Protocol client state: request identifiers and process lifecycle -/

/-- Embedding of `FastMCPClient._next_id` (src/mcp_client.py lines 114-117):
`self.request_id += 1; return self.request_id`, as a state transformer on
the `request_id` counter (initialised to `0` in `__init__`). Returns the
identifier handed to the request together with the updated counter. -/
def next_id (request_id : Nat) : Nat × Nat :=
  (request_id + 1, request_id + 1)

/-- The identifiers produced by `n` successive `_next_id` calls starting
from counter value `s`: every request the client sends (`initialize`,
`tools/list` and each `tools/call`) draws its `id` from this single
sequence. -/
def idsFrom (s : Nat) : Nat → List Nat
  | 0 => []
  | n + 1 =>
    let p := next_id s
    p.1 :: idsFrom p.2 n

/-- The state of a `FastMCPClient` that the lifecycle methods touch:
whether `self.process` holds a live `Popen` handle (`none` = `None`),
the `request_id` counter and the cached `available_tools` list. -/
structure ClientState where
  process : Option Unit
  request_id : Nat
  available_tools : List Json

/-- Embedding of `FastMCPClient.stop` (src/mcp_client.py lines 210-220): when
`self.process` is truthy (a `Popen` handle is always truthy) it
terminates the process — waiting up to five seconds, then killing — and
the `finally` block sets `self.process = None` on every path, so no
exception escapes; when `self.process` is `None` the body does nothing.
Only the state effect is modelled; terminate/wait/kill act on the
external process. -/
def ClientState.stop (s : ClientState) : ClientState :=
  match s.process with
  | some _ => { s with process := none }
  | none => s

/-- The external outcomes `FastMCPClient.start` depends on: whether
`subprocess.Popen` succeeds, and the decoded responses to the
`initialize` and `tools/list` requests (`none` = `_send_request`
returned `None`). -/
structure StartEnv where
  spawnOk : Bool
  initResponse : Option Json
  listResponse : Option Json

/-- The body of `FastMCPClient.start` (src/mcp_client.py lines 32-104),
before the surrounding `except` handler: spawn (raising when `Popen`
fails), `if not init_response: return False`, `if "error" in
init_response:` → read `init_response.get("error", ...)` for the printed
message and `return False`, send the `initialized` notification, then
`tools/list`: `if not tools_response: return False`; `if "result" in
tools_response:` → `result = tools_response.get("result", {})`, `if
result is None: return False`, `self.available_tools =
result.get("tools", [])`, then the success prints iterate the list with
`len(...)` and `tool.get('name', ...)` (raising on a non-list or
non-dict element) and `return True`; otherwise `return False`. Console
printing and the stderr read are pure output and are omitted. -/
def startBody (env : StartEnv) : Except PyError Bool := do
  if !env.spawnOk then throw .spawnError
  match env.initResponse with
  | none => pure false
  | some ir =>
    if !ir.truthy then pure false
    else if (← pyContains "error" ir) then
      let _ ← ir.get "error" (.str "Unknown error")
      pure false
    else
      match env.listResponse with
      | none => pure false
      | some tr =>
        if !tr.truthy then pure false
        else if (← pyContains "result" tr) then
          let result ← tr.get "result" (.obj [])
          match result with
          | .null => pure false
          | _ =>
            let tools ← result.get "tools" (.arr [])
            let _ ← tools.pyLen
            match tools with
            | .arr items =>
                if items.all Json.isObj then pure true else throw .attributeError
            | _ => throw .typeError
        else
          pure false

/-- Embedding of `FastMCPClient.start` (src/mcp_client.py lines 26-112): the whole
body runs inside `try: ... except Exception:` whose handler prints the
traceback, terminates any spawned process and returns `False`, so every
raised exception is converted to the return value `False` and nothing
propagates to the caller. -/
def start (env : StartEnv) : Bool :=
  match startBody env with
  | .ok b => b
  | .error _ => false

/-! ## Tool registry: unified map, dispatch, remote-tool wrappers -/

/-- Argument mapping of one tool call: string key → JSON value. -/
abbrev ArgsMap := List (String × Json)

/-- A registered tool as the registry sees it: a `name` and the
`invoke` method LangChain exposes (validation plus the underlying
function), which can raise. -/
structure RegisteredTool where
  name : String
  invoke : ArgsMap → Except PyError Json

/-- Python `dict` insertion `d[k] = v`: replace the value in place when
the key exists, append otherwise (dicts preserve insertion order). -/
def dictInsert (m : List (String × RegisteredTool)) (k : String) (v : RegisteredTool) :
    List (String × RegisteredTool) :=
  if m.any (fun p => p.1 == k) then
    m.map (fun p => if p.1 == k then (p.1, v) else p)
  else
    m ++ [(k, v)]

/-- Python `d[k]` / `k in d` as an optional lookup on the model dict. -/
def dictGet (m : List (String × RegisteredTool)) (k : String) : Option RegisteredTool :=
  (m.find? (fun p => p.1 == k)).map (fun p => p.2)

/-- Embedding of the `TOOL_MAP` dict comprehension over `ALL_COMBINED_TOOLS`
(src/main.py line 141): a dict comprehension over the concatenated
local-then-remote tool list, evaluated left to right. -/
def buildToolMap (tools : List RegisteredTool) : List (String × RegisteredTool) :=
  tools.foldl (fun m t => dictInsert m t.name t) []

/-- The dispatch step of the chat loop (src/main.py line 106):
`TOOL_MAP[tool_name].invoke(tool_input)` — a plain dict subscript, which
raises `KeyError` when the name is absent, then the tool's `invoke`. -/
def dispatchTool (tm : List (String × RegisteredTool)) (name : String) (args : ArgsMap) :
    Except PyError Json :=
  match dictGet tm name with
  | some t => t.invoke args
  | none => .error .keyError

/-- A remote tool's declaration as recorded at discovery: its name and
the `inputSchema` fields `create_mcp_tool` reads — the property names
and the `required` list. -/
structure ToolDef where
  name : String
  properties : List String
  required : List String

/-- The body of the wrapper function built by `create_mcp_tool`
(src/main.py lines 66-67): `mcp_tool_func(**kwargs)` just delegates to
`mcp_client.call_tool(tool_name, kwargs)`. `server` gives the decoded
response line the tool server produces for that `tools/call` request. -/
def mcp_tool_func (server : String → ArgsMap → Option Json) (name : String) (args : ArgsMap) :
    Except PyError Json :=
  call_tool (server name args)

/-- Semantics of `invoke` on the `StructuredTool` that `create_mcp_tool` returns
(src/main.py lines 36-77): the Pydantic args model built there marks
every property in `required` with `Field(...)` (mandatory) and the rest
with `Field(None)`, so invocation first validates the argument mapping —
a missing required field raises a `ValidationError` naming the missing
fields (LangChain's default `handle_validation_error` re-raises it) —
and only then calls `mcp_tool_func`. -/
def create_mcp_tool_invoke (td : ToolDef) (server : String → ArgsMap → Option Json)
    (args : ArgsMap) : Except PyError Json :=
  let missing := td.required.filter (fun r => !(args.any (fun p => p.1 == r)))
  if missing.isEmpty then mcp_tool_func server td.name args
  else .error (.validationError missing)

/-! ## Conversation loop controller -/

/-- One tool call request from a model response (`response.tool_calls`
elements): `{"name": ..., "args": ..., "id": ...}`. -/
structure ToolCall where
  id : String
  name : String
  args : ArgsMap

/-- One model response: its text content and its tool call requests. -/
structure AIResponse where
  content : String
  tool_calls : List ToolCall

/-- One entry of `conversation_history`. -/
inductive Msg where
  | system (content : String)
  | human (content : String)
  | ai (content : String) (tool_calls : List ToolCall)
  | tool (content : Json) (tool_call_id : String)

/-- The inner `for tool_call in response.tool_calls:` loop of `chat`
(src/main.py lines 99-114): for each request in order, dispatch through
`TOOL_MAP` and produce one `ToolMessage` whose content is the tool
result and whose `tool_call_id` is the request's id. Returns the list
of tool messages appended to the history, or the first exception. -/
def execCalls (tm : List (String × RegisteredTool)) : List ToolCall → Except PyError (List Msg)
  | [] => .ok []
  | tc :: rest => do
    let r ← dispatchTool tm tc.name tc.args
    let ms ← execCalls tm rest
    pure (Msg.tool r tc.id :: ms)

/-- The `while response.tool_calls:` loop of `chat` (src/main.py lines
94-122), with the already-received `response` in hand: when the response
has no tool calls it is appended and its content returned; otherwise the
assistant message is appended, every tool call is resolved into a tool
message, and only then is the model invoked again on the extended
history. `fuel` bounds the number of loop iterations the model is
allowed; `.ok none` means the loop was still running when the bound ran
out (the source has no bound at all). -/
def chatLoop (model : List Msg → AIResponse) (tm : List (String × RegisteredTool)) :
    Nat → List Msg → AIResponse → Except PyError (Option (List Msg × String))
  | 0, _, _ => .ok none
  | fuel + 1, history, resp =>
    if resp.tool_calls.isEmpty then
      .ok (some (history ++ [.ai resp.content resp.tool_calls], resp.content))
    else do
      let toolMsgs ← execCalls tm resp.tool_calls
      let h := history ++ [.ai resp.content resp.tool_calls] ++ toolMsgs
      chatLoop model tm fuel h (model h)

/-- Embedding of `chat(user_message)` (src/main.py lines 85-122): append the user
message, invoke the model on the history, then run the tool-call loop. -/
def chat (model : List Msg → AIResponse) (tm : List (String × RegisteredTool))
    (fuel : Nat) (history : List Msg) (user : String) :
    Except PyError (Option (List Msg × String)) :=
  let h := history ++ [.human user]
  chatLoop model tm fuel h (model h)

/-! ## Concrete sample data used by the witnesses and counterexamples -/

/-- A client that has never started (or has just stopped): no process. -/
def idleClient : ClientState := ⟨none, 0, []⟩

/-- Environment where `subprocess.Popen` itself fails. -/
def envSpawnFail : StartEnv := ⟨false, none, none⟩

/-- Environment where `initialize` gets no response line. -/
def envNoInit : StartEnv := ⟨true, none, none⟩

/-- Environment where the `initialize` response carries an error. -/
def envInitError : StartEnv :=
  ⟨true, some (.obj [("jsonrpc", .str "2.0"), ("id", .num 1),
    ("error", .obj [("message", .str "unsupported protocol")])]), none⟩

/-- A sample local tool for the registry (the `tool_time` stub). -/
def demoTimeTool : RegisteredTool := ⟨"tool_time", fun _ => .ok (.str "2025-01-01 00:00:00")⟩

/-- A one-tool registry. -/
def demoToolMap : List (String × RegisteredTool) := buildToolMap [demoTimeTool]

/-- A local tool colliding on the name `get_weather`. -/
def localWeather : RegisteredTool := ⟨"get_weather", fun _ => .ok (.str "local weather stub")⟩

/-- A remote (MCP) tool with the same name `get_weather`. -/
def remoteWeather : RegisteredTool := ⟨"get_weather", fun _ => .ok (.str "remote weather via MCP")⟩

/-- The `search_flights` remote tool as discovered from the server:
required arguments `origin`, `destination`, `departure_date`; optional
`return_date`. -/
def searchFlightsDef : ToolDef :=
  ⟨"search_flights", ["origin", "destination", "departure_date", "return_date"],
   ["origin", "destination", "departure_date"]⟩

/-- A stub tool server that always answers with a fixed result line. -/
def stubServer : String → ArgsMap → Option Json := fun _ _ =>
  some (.obj [("jsonrpc", .str "2.0"), ("id", .num 3),
    ("result", .obj [("content", .arr [.obj [("text", .str "2 flights found")]])])])

/-- The weather tool of the witness registry. -/
def wWeatherTool : RegisteredTool := ⟨"get_weather", fun _ => .ok (.str "sunny, 21°C")⟩

/-- The news tool of the witness registry. -/
def wNewsTool : RegisteredTool := ⟨"get_local_news", fun _ => .ok (.str "street festival")⟩

/-- A registry holding the two witness tools. -/
def wRegistry : List (String × RegisteredTool) := buildToolMap [wWeatherTool, wNewsTool]

/-- A model response issuing two tool calls in one turn. -/
def twoCallResp : AIResponse :=
  ⟨"", [⟨"call_1", "get_weather", [("location", .str "Paris")]⟩,
        ⟨"call_2", "get_local_news", [("location", .str "Paris")]⟩]⟩

/-- A model collaborator that requests a tool call on every response. -/
def loopingModel : List Msg → AIResponse :=
  fun _ => ⟨"", [⟨"loop_call", "get_time", []⟩]⟩

/-- The registry the looping witness dispatches into. -/
def loopRegistry : List (String × RegisteredTool) :=
  buildToolMap [⟨"get_time", fun _ => .ok (.str "12:00")⟩]

/-! ## Helper lemmas -/

theorem exceptBind_ok {α β ε : Type} (a : α) (f : α → Except ε β) :
    (Except.ok a >>= f : Except ε β) = f a := rfl

theorem exceptBind_err {α β ε : Type} (e : ε) (f : α → Except ε β) :
    (Except.error e >>= f : Except ε β) = Except.error e := rfl

theorem exceptPure {α ε : Type} (a : α) : (pure a : Except ε α) = Except.ok a := rfl

theorem exceptThrow {α ε : Type} (e : ε) : (throw e : Except ε α) = Except.error e := rfl

theorem exceptMap_ok {α β ε : Type} (f : α → β) (a : α) :
    (f <$> (Except.ok a : Except ε α)) = Except.ok (f a) := rfl

theorem exceptMap_err {α β ε : Type} (f : α → β) (e : ε) :
    (f <$> (Except.error e : Except ε α)) = Except.error e := rfl

theorem idsFrom_succ (s n : Nat) : idsFrom s (n + 1) = (s + 1) :: idsFrom (s + 1) n := rfl

theorem idsFrom_gt (n : Nat) : ∀ (s : Nat), ∀ i ∈ idsFrom s n, s < i := by
  induction n with
  | zero => intro s i hi; simp [idsFrom] at hi
  | succ n ih =>
    intro s i hi
    rw [idsFrom_succ] at hi
    rcases List.mem_cons.mp hi with rfl | hi
    · omega
    · have := ih (s + 1) i hi
      omega

theorem dictGet_nil (n : String) : dictGet [] n = none := rfl

theorem dictGet_cons (p : String × RegisteredTool) (m : List (String × RegisteredTool))
    (n : String) :
    dictGet (p :: m) n = if p.1 = n then some p.2 else dictGet m n := by
  by_cases h : p.1 = n
  · rw [dictGet, List.find?_cons_of_pos _ (by simp [h]), if_pos h]; rfl
  · rw [dictGet, List.find?_cons_of_neg _ (by simp [h]), if_neg h]; rfl

theorem dictGet_map_ne (m : List (String × RegisteredTool)) (k n : String) (v : RegisteredTool)
    (h : k ≠ n) :
    dictGet (m.map (fun p => if p.1 == k then (p.1, v) else p)) n = dictGet m n := by
  induction m with
  | nil => rfl
  | cons p m ih =>
    rw [List.map_cons, dictGet_cons, dictGet_cons]
    have hfst : (if p.1 == k then (p.1, v) else p).1 = p.1 := by
      by_cases hpk : p.1 == k <;> simp [hpk]
    rw [hfst]
    by_cases hn : p.1 = n
    · have hpk : ¬ (p.1 == k) = true := by
        simp
        intro hc
        exact h (hc ▸ hn)
      rw [if_pos hn, if_pos hn, if_neg hpk]
    · rw [if_neg hn, if_neg hn]
      exact ih

theorem dictGet_map_eq (m : List (String × RegisteredTool)) (k : String) (v : RegisteredTool)
    (hm : m.any (fun p => p.1 == k) = true) :
    dictGet (m.map (fun p => if p.1 == k then (p.1, v) else p)) k = some v := by
  induction m with
  | nil => simp at hm
  | cons p m ih =>
    rw [List.map_cons, dictGet_cons]
    have hfst : (if p.1 == k then (p.1, v) else p).1 = p.1 := by
      by_cases hpk : p.1 == k <;> simp [hpk]
    rw [hfst]
    by_cases hp : p.1 = k
    · rw [if_pos hp, if_pos (by simp [hp] : (p.1 == k) = true)]
    · have hm' : m.any (fun q => q.1 == k) = true := by
        simpa [hp] using hm
      rw [if_neg hp]
      exact ih hm'

theorem dictGet_insert (m : List (String × RegisteredTool)) (k : String) (v : RegisteredTool)
    (n : String) :
    dictGet (dictInsert m k v) n = if k = n then some v else dictGet m n := by
  by_cases hany : m.any (fun p => p.1 == k) = true
  · rw [dictInsert, if_pos hany]
    by_cases hkn : k = n
    · subst hkn; rw [if_pos rfl]; exact dictGet_map_eq m k v hany
    · rw [if_neg hkn]; exact dictGet_map_ne m k n v hkn
  · rw [dictInsert, if_neg hany]
    induction m with
    | nil => simp [dictGet_nil, dictGet_cons]
    | cons p m ih =>
      rw [List.cons_append, dictGet_cons, dictGet_cons]
      by_cases hp : p.1 = n
      · have hpk : ¬ p.1 = k := fun hc => hany (by simp [List.any_cons, hc])
        have hkn : ¬ k = n := fun hc => hpk (hp.trans hc.symm)
        rw [if_pos hp, if_pos hp, if_neg hkn]
      · have hany' : ¬ m.any (fun q => q.1 == k) = true := by
          intro hc
          exact hany (by simp [List.any_cons, hc])
        rw [if_neg hp, if_neg hp]
        exact ih hany'

/-! ## Claim theorems -/

/-- C6: within one client lifetime every request identifier drawn from
`_next_id` is fresh: the sequence of identifiers over any number of
successive requests is strictly increasing (pairwise `<`), hence no
identifier is ever reused (the list has no duplicates), and every
identifier exceeds the counter value the client started from. -/
theorem request_ids_strictly_increasing (s n : Nat) :
    List.Pairwise (· < ·) (idsFrom s n) ∧ (idsFrom s n).Nodup ∧
      ∀ i ∈ idsFrom s n, s < i := by
  refine ⟨?_, ?_, idsFrom_gt n s⟩
  · induction n generalizing s with
    | zero => simp [idsFrom]
    | succ n ih =>
      rw [idsFrom_succ]
      exact List.Pairwise.cons (fun i hi => idsFrom_gt n (s + 1) i hi) (ih (s + 1))
  · have hp : List.Pairwise (· < ·) (idsFrom s n) := by
      induction n generalizing s with
      | zero => simp [idsFrom]
      | succ n ih =>
        rw [idsFrom_succ]
        exact List.Pairwise.cons (fun i hi => idsFrom_gt n (s + 1) i hi) (ih (s + 1))
    exact hp.imp (fun h => Nat.ne_of_lt h)

/-- C7: `stop()` is idempotent: `stop(); stop()` leaves the client in
the same state as a single `stop()`, and calling `stop()` with no
process running (before any `start()`, or right after a `stop()`) is a
no-op on the client state. -/
theorem stop_idempotent (s : ClientState) :
    s.stop.stop = s.stop ∧ (s.process = none → s.stop = s) := by
  constructor
  · cases h : s.process <;> simp [ClientState.stop, h]
  · intro h; simp [ClientState.stop, h]

theorem stop_idempotent_witness :
    idleClient.stop.stop = idleClient.stop ∧ idleClient.stop = idleClient :=
  ⟨(stop_idempotent idleClient).1, (stop_idempotent idleClient).2 rfl⟩

/-- C8: `start()` reports failure by returning `False`, never by
raising (`start` is the exception-free projection of `startBody`, whose
raised exceptions the `except` handler converts to `False`): when the
process cannot be spawned, when the `initialize` request gets no
response, and when the `initialize` response carries an `"error"`
field, `start` returns `false`. -/
theorem start_failure_returns_false (env : StartEnv) :
    (env.spawnOk = false → start env = false) ∧
    (env.initResponse = none → start env = false) ∧
    (∀ kvs, env.initResponse = some (.obj kvs) →
      kvs.any (fun p => p.1 == "error") = true → start env = false) := by
  refine ⟨fun h => ?_, fun h => ?_, fun kvs h he => ?_⟩
  · simp [start, startBody, h, exceptBind_err, exceptThrow]
  · cases hs : env.spawnOk
    · simp [start, startBody, hs, exceptBind_err, exceptThrow]
    · simp [start, startBody, hs, h, exceptBind_ok, exceptPure]
  · cases hs : env.spawnOk
    · simp [start, startBody, hs, exceptBind_err, exceptThrow]
    · have hne : kvs ≠ [] := by rintro rfl; simp at he
      simp [start, startBody, hs, h, Json.truthy, pyContains, he, Json.get,
        List.isEmpty_iff, hne, exceptBind_ok, exceptBind_err, exceptPure, exceptThrow,
        exceptMap_ok]

theorem start_failure_returns_false_witness :
    start envSpawnFail = false ∧ start envNoInit = false ∧ start envInitError = false :=
  ⟨(start_failure_returns_false envSpawnFail).1 rfl,
   (start_failure_returns_false envNoInit).2.1 rfl,
   (start_failure_returns_false envInitError).2.2 _ rfl (by decide)⟩

/-- C3 (amended): dispatching a name absent from the unified tool map
does not return an "unknown tool" text — `TOOL_MAP[tool_name]` is a
plain dict subscript, so the lookup raises `KeyError`, and no handler
in `chat` catches it: the exception escapes the dispatch. -/
theorem dispatch_unknown_raises (tm : List (String × RegisteredTool)) (name : String)
    (args : ArgsMap) (h : ∀ p ∈ tm, p.1 ≠ name) :
    dispatchTool tm name args = .error .keyError := by
  have hfind : tm.find? (fun p => p.1 == name) = none := by
    rw [List.find?_eq_none]
    intro p hp
    simp [h p hp]
  rw [dispatchTool, dictGet, hfind]
  rfl

theorem dispatch_unknown_raises_witness :
    dispatchTool demoToolMap "get_flights" [] = .error .keyError :=
  dispatch_unknown_raises demoToolMap "get_flights" [] (by
    intro p hp
    have hp' : p = ("tool_time", demoTimeTool) := by
      simpa [demoToolMap, buildToolMap, dictInsert] using hp
    rw [hp']
    decide)

/-- C3 counterexample: at the concrete input `("nonexistent", {})` the
dispatch step evaluates to a raised `KeyError`, not to any returned
"unknown tool" error string — refuting the claim that dispatching an
absent name returns an error string and never crashes. -/
theorem dispatch_unknown_not_text :
    dispatchTool demoToolMap "nonexistent" [] = .error .keyError := rfl

/-- C4 (amended): registry construction never fails on a name
collision: `TOOL_MAP` is a dict comprehension, so for every tool list
and every name the unified map resolves the name to the **last** tool
in registration order carrying it — with `ALL_TOOLS + MCP_TOOLS` the
remote tool silently replaces a colliding local one. -/
theorem buildToolMap_last_wins (ts : List RegisteredTool) (n : String) :
    dictGet (buildToolMap ts) n = ts.reverse.find? (fun t => t.name == n) := by
  induction ts using List.reverseRecOn with
  | nil => rfl
  | append_singleton ts t ih =>
    rw [buildToolMap, List.foldl_append, List.foldl_cons, List.foldl_nil]
    rw [show List.foldl (fun m t => dictInsert m t.name t) [] ts = buildToolMap ts from rfl]
    rw [dictGet_insert, List.reverse_append, List.reverse_singleton, List.singleton_append]
    by_cases h : t.name = n
    · rw [if_pos h, List.find?_cons_of_pos _ (by simp [h])]
    · rw [if_neg h, List.find?_cons_of_neg _ (by simp [h]), ih]

/-- C4 counterexample: registering two distinct tools named
`get_weather` (local first, remote second) does not fail: the map is
built, maps the name to the remote tool, and the dropped local tool was
observably different — refuting the claim that duplicate names make
registry construction fail rather than silently preferring one tool. -/
theorem buildToolMap_silent_override :
    buildToolMap [localWeather, remoteWeather] = [("get_weather", remoteWeather)] ∧
    dictGet (buildToolMap [localWeather, remoteWeather]) "get_weather" = some remoteWeather ∧
    localWeather.invoke [] ≠ remoteWeather.invoke [] := by
  refine ⟨rfl, rfl, ?_⟩
  intro h
  simp [localWeather, remoteWeather] at h

theorem execCalls_ok (tm : List (String × RegisteredTool)) (tcs : List ToolCall)
    (h : ∀ tc ∈ tcs, ∃ j, dispatchTool tm tc.name tc.args = .ok j) :
    ∃ ms, execCalls tm tcs = .ok ms ∧
      List.Forall₂ (fun (tc : ToolCall) (m : Msg) =>
        ∃ j, dispatchTool tm tc.name tc.args = .ok j ∧ m = .tool j tc.id) tcs ms := by
  induction tcs with
  | nil => exact ⟨[], rfl, List.Forall₂.nil⟩
  | cons tc rest ih =>
    obtain ⟨j, hj⟩ := h tc (List.mem_cons_self _ _)
    obtain ⟨ms, hms, hfa⟩ := ih (fun tc' htc' => h tc' (List.mem_cons_of_mem _ htc'))
    refine ⟨Msg.tool j tc.id :: ms, ?_, List.Forall₂.cons ⟨j, hj, rfl⟩ hfa⟩
    simp only [execCalls]
    rw [hj, exceptBind_ok, hms, exceptBind_ok, exceptPure]

/-- C5 (amended): invoking a remote tool's wrapper with at least one
required argument missing raises a `ValidationError` carrying exactly
the missing required names, and does so for **every** tool server — the
result does not depend on the server, so `callTool` is never reached
and no request is sent. The error is a raised exception propagating to
the caller, not a textual tool result. -/
theorem mcp_wrapper_missing_required (td : ToolDef) (args : ArgsMap)
    (h : td.required.filter (fun r => !(args.any (fun p => p.1 == r))) ≠ []) :
    ∀ server, create_mcp_tool_invoke td server args =
      .error (.validationError
        (td.required.filter (fun r => !(args.any (fun p => p.1 == r))))) := by
  intro server
  have hne : (td.required.filter (fun r => !(args.any (fun p => p.1 == r)))).isEmpty = false := by
    simp [List.isEmpty_iff, h]
  simp [create_mcp_tool_invoke, hne]

theorem mcp_wrapper_missing_required_witness :
    create_mcp_tool_invoke searchFlightsDef stubServer [("origin", .str "JFK")] =
      .error (.validationError ["destination", "departure_date"]) :=
  mcp_wrapper_missing_required searchFlightsDef [("origin", .str "JFK")]
    (by decide) stubServer

/-- C5 counterexample: calling the `search_flights` wrapper with only
`origin` yields a raised `ValidationError`, not an `.ok` textual
result — refuting the claim that the missing-argument failure is
delivered as a textual result. -/
theorem mcp_wrapper_validation_not_text :
    create_mcp_tool_invoke searchFlightsDef stubServer [("origin", .str "JFK")] =
      .error (.validationError ["destination", "departure_date"]) ∧
    create_mcp_tool_invoke searchFlightsDef stubServer
        [("origin", .str "JFK"), ("destination", .str "LAX"),
         ("departure_date", .str "2025-06-01")] =
      .ok (.str "2 flights found") := by
  constructor
  · rfl
  · rfl

/-- C2: for every model response carrying tool call requests (all of
whose dispatches succeed), the requests are resolved strictly in the
order the model produced them — `Forall₂` aligns the appended
tool-result messages one-to-one and in order with the requests, each
carrying that request's dispatch result and call id — and the next
model invocation happens only on the history already extended with the
assistant message and **all** of those tool-result messages. -/
theorem chat_tool_results_in_order (tm : List (String × RegisteredTool)) (resp : AIResponse)
    (h : ∀ tc ∈ resp.tool_calls, ∃ j, dispatchTool tm tc.name tc.args = .ok j) :
    ∃ ms, execCalls tm resp.tool_calls = .ok ms ∧
      List.Forall₂ (fun (tc : ToolCall) (m : Msg) =>
        ∃ j, dispatchTool tm tc.name tc.args = .ok j ∧ m = .tool j tc.id)
        resp.tool_calls ms ∧
      (resp.tool_calls ≠ [] →
        ∀ model fuel history,
          chatLoop model tm (fuel + 1) history resp =
            chatLoop model tm fuel (history ++ [.ai resp.content resp.tool_calls] ++ ms)
              (model (history ++ [.ai resp.content resp.tool_calls] ++ ms))) := by
  obtain ⟨ms, hms, hfa⟩ := execCalls_ok tm resp.tool_calls h
  refine ⟨ms, hms, hfa, fun hne model fuel history => ?_⟩
  have hemp : ¬ resp.tool_calls.isEmpty = true := by
    simp [List.isEmpty_iff, hne]
  simp only [chatLoop]
  rw [if_neg hemp, hms, exceptBind_ok]

theorem chat_tool_results_in_order_witness :
    ∃ ms, execCalls wRegistry twoCallResp.tool_calls = .ok ms ∧
      List.Forall₂ (fun (tc : ToolCall) (m : Msg) =>
        ∃ j, dispatchTool wRegistry tc.name tc.args = .ok j ∧ m = .tool j tc.id)
        twoCallResp.tool_calls ms ∧
      (twoCallResp.tool_calls ≠ [] →
        ∀ model fuel history,
          chatLoop model wRegistry (fuel + 1) history twoCallResp =
            chatLoop model wRegistry fuel
              (history ++ [.ai twoCallResp.content twoCallResp.tool_calls] ++ ms)
              (model (history ++ [.ai twoCallResp.content twoCallResp.tool_calls] ++ ms))) :=
  chat_tool_results_in_order wRegistry twoCallResp (by
    intro tc htc
    simp only [twoCallResp, List.mem_cons, List.not_mem_nil, or_false] at htc
    rcases htc with rfl | rfl
    · exact ⟨.str "sunny, 21°C", rfl⟩
    · exact ⟨.str "street festival", rfl⟩)

/-- C9: the chat loop has no iteration bound: for every model whose
every response carries at least one tool call (and whose dispatches all
succeed), the loop produces no final answer within **any** number of
iterations — `chatLoop` returns `.ok none` (still looping) for every
fuel value, and so does a whole `chat` turn. -/
theorem chat_loop_never_terminates (model : List Msg → AIResponse)
    (tm : List (String × RegisteredTool))
    (hm : ∀ h, (model h).tool_calls ≠ [])
    (hd : ∀ h, ∀ tc ∈ (model h).tool_calls, ∃ j, dispatchTool tm tc.name tc.args = .ok j) :
    (∀ fuel history resp,
        resp.tool_calls ≠ [] →
        (∀ tc ∈ resp.tool_calls, ∃ j, dispatchTool tm tc.name tc.args = .ok j) →
        chatLoop model tm fuel history resp = .ok none) ∧
    (∀ fuel history user, chat model tm fuel history user = .ok none) := by
  have main : ∀ fuel history resp,
      resp.tool_calls ≠ [] →
      (∀ tc ∈ resp.tool_calls, ∃ j, dispatchTool tm tc.name tc.args = .ok j) →
      chatLoop model tm fuel history resp = .ok none := by
    intro fuel
    induction fuel with
    | zero => intro history resp _ _; rfl
    | succ fuel ih =>
      intro history resp h1 h2
      obtain ⟨ms, hms, _⟩ := execCalls_ok tm resp.tool_calls h2
      have hemp : ¬ resp.tool_calls.isEmpty = true := by
        simp [List.isEmpty_iff, h1]
      simp only [chatLoop]
      rw [if_neg hemp, hms, exceptBind_ok]
      exact ih _ _ (hm _) (hd _)
  exact ⟨main, fun fuel history user => main fuel _ _ (hm _) (hd _)⟩

theorem chat_loop_never_terminates_witness :
    chat loopingModel loopRegistry 7 [] "plan a trip" = .ok none :=
  (chat_loop_never_terminates loopingModel loopRegistry
    (by intro h; simp [loopingModel])
    (by
      intro h tc htc
      simp only [loopingModel, List.mem_cons, List.not_mem_nil, or_false] at htc
      rcases htc with rfl
      exact ⟨.str "12:00", rfl⟩)).2 7 [] "plan a trip"

theorem call_tool_obj_truthy (kvs : List (String × Json)) (h : kvs ≠ []) :
    (Json.obj kvs).truthy = true := by
  simp [Json.truthy, h]

theorem call_tool_no_error_result (kvs : List (String × Json)) (q : String × Json)
    (hne : kvs.any (fun p => p.1 == "error") = false)
    (hres : kvs.find? (fun p => p.1 == "result") = some q) :
    call_tool (some (.obj kvs)) = (do
      let content ← q.2.get "content" (.arr [])
      let contentLen ← if content.truthy then content.pyLen else pure 0
      if content.truthy && contentLen > 0 then
        let first ← content.item0
        first.get "text" (.str "No response from MCP server")
      else
        pure (.str "❌ Error: Invalid response from MCP server")) := by
  have hkne : kvs ≠ [] := by
    intro hc; rw [hc] at hres; simp at hres
  have htr := call_tool_obj_truthy kvs hkne
  have hq := List.find?_some hres
  have hany : kvs.any (fun p => p.1 == "result") = true :=
    List.any_eq_true.mpr ⟨q, List.mem_of_find?_eq_some hres, hq⟩
  simp only [call_tool, htr, Bool.not_true, Bool.false_eq_true, if_false]
  rw [show pyContains "error" (Json.obj kvs) = Except.ok (kvs.any fun p => p.1 == "error")
      from rfl, hne, exceptBind_ok]
  simp only [Bool.false_eq_true, if_false]
  rw [show pyContains "result" (Json.obj kvs) = Except.ok (kvs.any fun p => p.1 == "result")
      from rfl, hany, exceptBind_ok]
  simp only [if_true]
  simp only [Json.idx, hres]
  rw [exceptBind_ok]

/-- C1 (amended): for `tools/call` responses whose inspected fields are
well-typed, `call_tool` behaves as specified — (1) a well-formed
response (no `error` member; a dict `result` whose `content` is a
non-empty array whose first element is a dict carrying `text`) returns
that first element's `text` value unchanged; (2) a response whose
`error` member is a dict with a string `message` returns the tagged
string containing that message; (3) a missing response returns the
tagged no-response string, and every response object passing
`responseShapeOK` (the fields the code inspects have the shapes the
code assumes) yields some `.ok` value, never an exception. Outside
`responseShapeOK` the call can raise (see the counterexample). -/
theorem call_tool_response_cases :
    (∀ (kvs rkvs fkvs : List (String × Json)) (rest : List Json) (t : Json),
       kvs.any (fun p => p.1 == "error") = false →
       kvs.find? (fun p => p.1 == "result") = some ("result", .obj rkvs) →
       rkvs.find? (fun p => p.1 == "content") = some ("content", .arr (.obj fkvs :: rest)) →
       fkvs.find? (fun p => p.1 == "text") = some ("text", t) →
       call_tool (some (.obj kvs)) = .ok t) ∧
    (∀ (kvs ekvs : List (String × Json)) (m : String),
       kvs.find? (fun p => p.1 == "error") = some ("error", .obj ekvs) →
       ekvs.find? (fun p => p.1 == "message") = some ("message", .str m) →
       call_tool (some (.obj kvs)) = .ok (.str ("❌ Error calling tool: " ++ m))) ∧
    (call_tool none = .ok (.str "❌ Error: No response from MCP server")) ∧
    (∀ kvs, responseShapeOK kvs = true → ∃ j, call_tool (some (.obj kvs)) = .ok j) := by
  refine ⟨?_, ?_, rfl, ?_⟩
  · intro kvs rkvs fkvs rest t hne hres hcon htext
    rw [call_tool_no_error_result kvs ("result", .obj rkvs) hne hres]
    simp only [Json.get, hcon, Option.map_some', Option.getD_some, exceptBind_ok]
    simp [Json.truthy, Json.pyLen, Json.item0, Json.get, htext,
      exceptBind_ok, exceptPure]
  · intro kvs ekvs m herr hmsg
    have hkne : kvs ≠ [] := by
      intro hc; rw [hc] at herr; simp at herr
    have hq := List.find?_some herr
    have hany : kvs.any (fun p => p.1 == "error") = true :=
      List.any_eq_true.mpr ⟨_, List.mem_of_find?_eq_some herr, hq⟩
    simp only [call_tool, call_tool_obj_truthy kvs hkne, Bool.not_true,
      Bool.false_eq_true, if_false]
    rw [show pyContains "error" (Json.obj kvs) = Except.ok (kvs.any fun p => p.1 == "error")
        from rfl, hany, exceptBind_ok]
    simp only [if_true]
    simp only [Json.idx, herr]
    rw [exceptBind_ok]
    simp [Json.get, hmsg, exceptBind_ok, exceptPure, Json.pyStr]
  · intro kvs h
    by_cases hkne : kvs = []
    · subst hkne
      exact ⟨_, rfl⟩
    · cases herr : kvs.find? (fun p => p.1 == "error") with
      | some p =>
        simp only [responseShapeOK, herr] at h
        have hq := List.find?_some herr
        have hany : kvs.any (fun q => q.1 == "error") = true :=
          List.any_eq_true.mpr ⟨_, List.mem_of_find?_eq_some herr, hq⟩
        simp only [call_tool, call_tool_obj_truthy kvs hkne, Bool.not_true,
          Bool.false_eq_true, if_false]
        rw [show pyContains "error" (Json.obj kvs) = Except.ok (kvs.any fun p => p.1 == "error")
            from rfl, hany, exceptBind_ok]
        simp only [if_true]
        simp only [Json.idx, herr]
        rw [exceptBind_ok]
        cases hp2 : p.2 <;> rw [hp2] at h <;> simp [Json.isObj] at h
        simp [Json.get, exceptBind_ok, exceptPure]
      | none =>
        have hne : kvs.any (fun q => q.1 == "error") = false := by
          rw [← Bool.not_eq_true, List.any_eq_true]
          rintro ⟨x, hx, hpx⟩
          exact (List.find?_eq_none.mp herr x hx) hpx
        cases hres : kvs.find? (fun p => p.1 == "result") with
        | some q =>
          simp only [responseShapeOK, herr, hres] at h
          rw [call_tool_no_error_result kvs q hne hres]
          cases hq2 : q.2 with
          | null => rw [hq2] at h; exact absurd h (by simp [resultShapeOK])
          | bool b => rw [hq2] at h; exact absurd h (by simp [resultShapeOK])
          | num n => rw [hq2] at h; exact absurd h (by simp [resultShapeOK])
          | str s => rw [hq2] at h; exact absurd h (by simp [resultShapeOK])
          | arr xs => rw [hq2] at h; exact absurd h (by simp [resultShapeOK])
          | obj rkvs =>
          rw [hq2] at h
          simp only [resultShapeOK] at h
          cases hcv : ((rkvs.find? (fun p => p.1 == "content")).map (fun p => p.2)).getD
              (.arr []) with
          | null => simp [Json.get, hcv, Json.truthy, exceptBind_ok, exceptPure]
          | bool b =>
            rw [hcv] at h
            simp only [contentShapeOK] at h
            have hb : b = false := by simpa using h
            simp [Json.get, hcv, Json.truthy, hb, exceptBind_ok, exceptPure]
          | num n =>
            rw [hcv] at h
            simp only [contentShapeOK] at h
            have hn : n = 0 := by simpa using h
            simp [Json.get, hcv, Json.truthy, hn, exceptBind_ok, exceptPure]
          | str s =>
            rw [hcv] at h
            simp only [contentShapeOK] at h
            simp [Json.get, hcv, Json.truthy, h, exceptBind_ok, exceptPure]
          | obj kvs2 =>
            rw [hcv] at h
            simp only [contentShapeOK] at h
            simp [Json.get, hcv, Json.truthy, h, exceptBind_ok, exceptPure]
          | arr xs =>
            rw [hcv] at h
            simp only [contentShapeOK] at h
            cases xs with
            | nil => simp [Json.get, hcv, Json.truthy, exceptBind_ok, exceptPure]
            | cons x xs =>
              cases hx : x <;> rw [hx] at h <;> simp [Json.isObj] at h
              simp [Json.get, hcv, Json.truthy, Json.pyLen, Json.item0,
                exceptBind_ok, exceptPure]
              subst hx
              exact ⟨_, rfl⟩
        | none =>
          have hnr : kvs.any (fun q => q.1 == "result") = false := by
            rw [← Bool.not_eq_true, List.any_eq_true]
            rintro ⟨x, hx, hpx⟩
            exact (List.find?_eq_none.mp hres x hx) hpx
          simp only [call_tool, call_tool_obj_truthy kvs hkne, Bool.not_true,
            Bool.false_eq_true, if_false]
          rw [show pyContains "error" (Json.obj kvs) =
              Except.ok (kvs.any fun p => p.1 == "error") from rfl, hne, exceptBind_ok]
          simp only [Bool.false_eq_true, if_false]
          rw [show pyContains "result" (Json.obj kvs) =
              Except.ok (kvs.any fun p => p.1 == "result") from rfl, hnr, exceptBind_ok]
          simp only [Bool.false_eq_true, if_false]
          exact ⟨_, rfl⟩

/-- C1 counterexample: at the concrete response
`{"jsonrpc": "2.0", "id": 3, "result": null}` — a legal JSON-RPC
response line — `call_tool` evaluates `response["result"].get(...)` on
`None` and raises `AttributeError`, which no handler in `call_tool`
catches: it does not return a textual error value, refuting the
claim's "in every case ... never raises" clause. -/
theorem call_tool_null_result_raises :
    call_tool (some (.obj [("jsonrpc", .str "2.0"), ("id", .num 3), ("result", .null)])) =
      .error .attributeError := rfl

theorem call_tool_response_cases_witness :
    call_tool (some (.obj [("jsonrpc", .str "2.0"),
        ("result", .obj [("content", .arr [.obj [("text", .str "sunny in Paris")]])])])) =
      .ok (.str "sunny in Paris") ∧
    call_tool (some (.obj [("jsonrpc", .str "2.0"),
        ("error", .obj [("code", .num (-32602)), ("message", .str "Unknown tool")])])) =
      .ok (.str ("❌ Error calling tool: " ++ "Unknown tool")) ∧
    (∃ j, call_tool (some (.obj [("jsonrpc", .str "2.0")])) = .ok j) :=
  ⟨call_tool_response_cases.1 _ _ _ _ _ rfl rfl rfl rfl,
   call_tool_response_cases.2.1 _ _ _ rfl rfl,
   call_tool_response_cases.2.2.2 _ rfl⟩

/-- C10: when a `tools/call` response has a `result` with a non-empty
`content` array whose first element lacks a `text` field, `call_tool`
returns the literal untagged string `"No response from MCP server"` —
the `.get` default, the same wording (without the `"❌ Error: "` tag)
that the genuinely-missing-response case returns — so the outcome is
indistinguishable from a tool that actually answered with that text, as
the third conjunct shows on a well-formed response carrying exactly that
text. -/
theorem call_tool_missing_text_default (kvs rkvs fkvs : List (String × Json)) (rest : List Json)
    (hne : kvs.any (fun p => p.1 == "error") = false)
    (hres : kvs.find? (fun p => p.1 == "result") = some ("result", .obj rkvs))
    (hcon : rkvs.find? (fun p => p.1 == "content") = some ("content", .arr (.obj fkvs :: rest)))
    (hnotext : fkvs.find? (fun p => p.1 == "text") = none) :
    call_tool (some (.obj kvs)) = .ok (.str "No response from MCP server") ∧
    ("No response from MCP server" : String) ≠ "❌ Error: No response from MCP server" ∧
    call_tool (some (.obj [("result", .obj [("content",
        .arr [.obj [("text", .str "No response from MCP server")]])])])) =
      .ok (.str "No response from MCP server") ∧
    call_tool none = .ok (.str ("❌ Error: " ++ "No response from MCP server")) := by
  refine ⟨?_, by simp, rfl, rfl⟩
  rw [call_tool_no_error_result kvs ("result", .obj rkvs) hne hres]
  simp only [Json.get, hcon, Option.map_some', Option.getD_some, exceptBind_ok]
  simp [Json.truthy, Json.pyLen, Json.item0, Json.get, hnotext, exceptBind_ok, exceptPure]

theorem call_tool_missing_text_default_witness :
    call_tool (some (.obj [("jsonrpc", .str "2.0"),
        ("result", .obj [("content", .arr [.obj [("type", .str "image")]])])])) =
      .ok (.str "No response from MCP server") ∧
    ("No response from MCP server" : String) ≠ "❌ Error: No response from MCP server" ∧
    call_tool (some (.obj [("result", .obj [("content",
        .arr [.obj [("text", .str "No response from MCP server")]])])])) =
      .ok (.str "No response from MCP server") ∧
    call_tool none = .ok (.str ("❌ Error: " ++ "No response from MCP server")) :=
  call_tool_missing_text_default _ _ _ _ rfl rfl rfl rfl

theorem request_ids_strictly_increasing_witness :
    List.Pairwise (· < ·) (idsFrom 0 3) ∧ (idsFrom 0 3).Nodup ∧ ∀ i ∈ idsFrom 0 3, 0 < i :=
  request_ids_strictly_increasing 0 3
